import Mathlib

/-
Verification development for the reinforcement-learning module
(src/research/reinforcement_learning.py).

Modelling conventions (shallow embedding):
- Python attribute names (strings) are modelled as lists of characters, so
  that `str.startswith` becomes `List.isPrefixOf`.
- Python scalar attribute values are modelled by the inductive type `Val`
  (integers, strings, `None`).
- A Python dict is modelled as an association list in insertion order
  (Python dicts preserve insertion order; new keys are appended at the end,
  assignment to an existing key keeps its position).
- Python floats are modelled as rationals (`ℚ`); all arithmetic appearing in
  the verified claims is exact on the inputs considered.
- The pseudo-random generator of `RandomMixin` is modelled as an explicit
  finite list of draws (`Draw.rand q` for `rng.random()`, `Draw.pick i` for
  the index chosen by `rng.choice`).  An operation that needs more draws than
  the supplied list returns `none`; a run of the Python code corresponds to
  a sufficiently long draw list.
- Fallible Python code (exceptions: `AttributeError`, `IndexError`,
  `TypeError`) is modelled with `Option`, `none` standing for a raised
  exception.
-/

namespace RL

/-- Python scalar values stored in records and memory slots. -/
inductive Val where
  | vint : Int → Val
  | vstr : List Char → Val
  | vnone : Val
deriving DecidableEq, Repr

/-- Attribute names: Python strings as character lists. -/
abbrev Name := List Char

/-- First-match lookup in an association list (Python dict `__getitem__` /
`in`, on lists without duplicate keys). -/
def lookupA {κ ν : Type} [DecidableEq κ] : List (κ × ν) → κ → Option ν
  | [], _ => none
  | (k1, v1) :: rest, k => if k1 = k then some v1 else lookupA rest k

/-- Python dict assignment `d[k] = v`: an existing key keeps its position,
a new key is appended at the end. -/
def setA {κ ν : Type} [DecidableEq κ] : List (κ × ν) → κ → ν → List (κ × ν)
  | [], k, v => [(k, v)]
  | (k1, v1) :: rest, k, v =>
      if k1 = k then (k, v) :: rest else (k1, v1) :: setA rest k v

/-- Python dict equality `d1 == d2` (same keys, same value at each key),
on association lists without duplicate keys. -/
def dict_eq (a b : List (Name × Val)) : Bool :=
  a.all (fun kv => decide (lookupA b kv.1 = some kv.2)) &&
    b.all (fun kv => decide (lookupA a kv.1 = some kv.2))

/-- `AttrDict`: read-only keyed record; `_attributes_` holds the kwargs in
insertion order. -/
structure AttrDict where
  attrs : List (Name × Val)
deriving DecidableEq, Repr

/-- `State`: a state or observation (an `AttrDict` subclass with no extra
fields). -/
structure State where
  attrs : List (Name × Val)
deriving DecidableEq, Repr

/-- `Action`: an `AttrDict` subclass carrying an extra plain instance
attribute `name`, stored outside `_attributes_`. -/
structure Action where
  name : Name
  attrs : List (Name × Val)
deriving DecidableEq, Repr

/-- `AttrDict.__eq__` for two `Action` values: the `type(self) is
type(other)` test passes, and only `_attributes_` is compared — the `name`
instance attribute is not part of `_attributes_`. -/
def action_eq (a b : Action) : Bool :=
  dict_eq a.attrs b.attrs

/-- `AttrDict.__eq__` for two `State` values. -/
def state_eq (a b : State) : Bool :=
  dict_eq a.attrs b.attrs

/-- Python `action in actions` for a list of actions: membership decided by
`__eq__` (`action_eq`). -/
def py_mem_action (x : Action) (l : List Action) : Bool :=
  l.any (fun e => action_eq e x)

/-- Total order used by Python `sorted` on the items of a record: the keys
are distinct, so comparison of the `(key, value)` tuples is decided by the
keys (lexicographic string order). -/
def nameLe : Name → Name → Bool
  | [], _ => true
  | _ :: _, [] => false
  | c1 :: r1, c2 :: r2 => if c1 = c2 then nameLe r1 r2 else decide (c1 < c2)

/-- Insertion step of the sort used to model `sorted(self)`. -/
def insertPair (kv : Name × Val) : List (Name × Val) → List (Name × Val)
  | [] => [kv]
  | kv2 :: rest =>
      if nameLe kv.1 kv2.1 then kv :: kv2 :: rest else kv2 :: insertPair kv rest

/-- `sorted(self)`: the record's items sorted by key. -/
def sortPairs (l : List (Name × Val)) : List (Name × Val) :=
  l.foldr insertPair []

/-- `AttrDict.__hash__` hashes `tuple(sorted(self._attributes_.items()))`:
the hash is a fixed deterministic function of this key, so we model the hash
by the key itself (equal keys give equal Python hashes; distinct keys give
distinct hashes up to accidental collisions). -/
def attrdict_hash_key (d : AttrDict) : List (Name × Val) :=
  sortPairs d.attrs

/-- `Action.__hash__` hashes `tuple([self.name, *sorted(self)])`: the name
is part of the hashed key. -/
def action_hash_key (a : Action) : Name × List (Name × Val) :=
  (a.name, sortPairs a.attrs)

/-- `State` inherits `AttrDict.__hash__`. -/
def state_hash_key (s : State) : List (Name × Val) :=
  sortPairs s.attrs

/-- Value of an optional memory-slot content when stored as a record
attribute (`None` becomes the Python value `None`). -/
def opt_val : Option Val → Val
  | some v => v
  | none => Val.vnone

/-- The dict comprehension
`{(prefix + '\x7b\x7d'.format(i)): value for i, value in enumerate(memories)}`. -/
def mem_pairs (pre : Name) (memories : List (Option Val)) : List (Name × Val) :=
  memories.enum.map (fun iv => (pre ++ Nat.toDigits 10 iv.1, opt_val iv.2))

/-- `augment_state(state, memories, prefix)`: drop the attributes whose name
starts with the prefix, then build `State(**memories, **state)` (memory
attributes first, surviving attributes after, in their original order). -/
def augment_state (state : State) (memories : List (Option Val)) (pre : Name) :
    State :=
  { attrs := mem_pairs pre memories ++
      state.attrs.filter (fun kv => !(pre.isPrefixOf kv.1)) }

/-! ## TabularQLearningAgent

The agent is modelled generically over the types of observations and
actions.  Table keys are `Option`s because Python's `None` can be used both
as the `prev_observation` and as the `prev_action` dict key. -/

/-- State of a `TabularQLearningAgent`: the sparse two-level value table
(`defaultdict(lambda: defaultdict(float))`, modelled as nested association
lists in insertion order), the interaction cursor, and the parameters. -/
structure QAgent (Obs Act : Type) where
  value_function : List (Option Obs × List (Option Act × ℚ))
  prev_observation : Option Obs
  prev_action : Option Act
  learning_rate : ℚ
  discount_rate : ℚ
deriving DecidableEq, Repr

section QAgentOps

variable {Obs Act : Type} [DecidableEq Obs] [DecidableEq Act]

/-- `TabularQLearningAgent.get_value`: guarded at the outer level
(`if observation not in self.value_function: return 0`), but the inner
access `self.value_function[observation][action]` is on a `defaultdict`, so
a missing action key is *inserted* with value `0.0` (appended at the end of
the inner dict).  Returns the value and the (possibly mutated) agent. -/
def get_value (ag : QAgent Obs Act) (observation : Option Obs)
    (action : Option Act) : ℚ × QAgent Obs Act :=
  match lookupA ag.value_function observation with
  | none => (0, ag)
  | some inner =>
      match lookupA inner action with
      | some v => (v, ag)
      | none =>
          let t := setA ag.value_function observation (inner ++ [(action, 0)])
          (0, { ag with value_function := t })

/-- The value `get_value` returns, as a pure read (used to state results;
`get_value` itself threads the table because of the defaultdict insertion). -/
def value_of (ag : QAgent Obs Act) (observation : Option Obs)
    (action : Option Act) : ℚ :=
  match lookupA ag.value_function observation with
  | none => 0
  | some inner => (lookupA inner action).getD 0

/-- `TabularQLearningAgent.get_stored_actions`: the inner dict's keys (in
insertion order), `[]` when the observation is absent.  No mutation. -/
def get_stored_actions (ag : QAgent Obs Act) (observation : Option Obs) :
    List (Option Act) :=
  match lookupA ag.value_function observation with
  | none => []
  | some inner => inner.map Prod.fst

/-- `Agent.get_best_action`: `None` if there are no stored actions, else
`max(actions, key=lambda a: self.get_value(observation, a))` — Python's
`max` keeps the first element on ties and updates only on a strictly larger
key.  Every candidate is a stored key, so the `get_value` calls it makes hit
existing entries and do not mutate the table; they equal `value_of`. -/
def get_best_action (ag : QAgent Obs Act) (observation : Option Obs) :
    Option Act :=
  match get_stored_actions ag observation with
  | [] => none
  | k :: ks =>
      ks.foldl
        (fun best y =>
          if value_of ag observation best < value_of ag observation y then y
          else best)
        k

/-- `Agent.get_best_value`:
`self.get_value(observation, self.get_best_action(observation))` (the
`get_value` call can mutate the table through the defaultdict). -/
def get_best_value (ag : QAgent Obs Act) (observation : Option Obs) :
    ℚ × QAgent Obs Act :=
  get_value ag observation (get_best_action ag observation)

/-- `self.value_function[prev_obs][prev_act] = v`: the outer `defaultdict`
creates a fresh inner dict (appended at the end) when the observation is
absent; the inner assignment follows dict semantics (`setA`). -/
def dict_write (t : List (Option Obs × List (Option Act × ℚ)))
    (o : Option Obs) (a : Option Act) (v : ℚ) :
    List (Option Obs × List (Option Act × ℚ)) :=
  match lookupA t o with
  | none => t ++ [(o, [(a, v)])]
  | some inner => setA t o (setA inner a v)

/-- `TabularQLearningAgent.observe_reward(observation, reward)`, in source
order: read the cursor's value (possibly inserting a `0.0` defaultdict
entry), read the best value at `observation` on the resulting table, then
write the blended value back to the cursor's entry. -/
def observe_reward (ag : QAgent Obs Act) (observation : Option Obs)
    (reward : ℚ) : QAgent Obs Act :=
  let pv := get_value ag ag.prev_observation ag.prev_action
  let ag1 := pv.2
  let bv := get_best_value ag1 observation
  let ag2 := bv.2
  let next_value := reward + ag.discount_rate * bv.1
  let new_value :=
    (1 - ag.learning_rate) * pv.1 + ag.learning_rate * next_value
  let t :=
    dict_write ag2.value_function ag.prev_observation ag.prev_action new_value
  { ag2 with value_function := t }

/-- `Agent.force_act(observation, action)`: record the cursor (the action is
recorded only when the observation is not `None`) and return the action. -/
def force_act (ag : QAgent Obs Act) (observation : Option Obs)
    (action : Option Act) : Option Act × QAgent Obs Act :=
  match observation with
  | none =>
      (action, { ag with prev_observation := none, prev_action := none })
  | some o =>
      (action, { ag with prev_observation := some o, prev_action := action })

/-- One step of the pseudo-random source. -/
inductive Draw where
  | rand : ℚ → Draw
  | pick : Nat → Draw
deriving DecidableEq, Repr

/-- A draw the Python generator can actually produce: `rng.random()` lies in
`[0, 1)`. -/
def Draw.valid : Draw → Prop
  | rand q => 0 ≤ q ∧ q < 1
  | pick _ => True

instance : DecidablePred Draw.valid := by
  intro d
  cases d <;> simp [Draw.valid] <;> infer_instance

/-- `Agent.act(observation, actions)` (the wrapped agent's own act): greedy
selection over stored actions, falling back to `rng.choice(actions)` when no
best action is stored.  Returns the chosen action, the updated agent and the
remaining draws; `none` models an exception or an exhausted draw list. -/
def agent_act (ag : QAgent Obs Act) (draws : List Draw)
    (observation : Option Obs) (actions : List Act) :
    Option (Act × QAgent Obs Act × List Draw) :=
  match get_best_action ag observation with
  | some a => some (a, (force_act ag observation (some a)).2, draws)
  | none =>
      match draws with
      | Draw.pick i :: rest =>
          match actions[i]? with
          | some a => some (a, (force_act ag observation (some a)).2, rest)
          | none => none
      | _ => none

/-- The retry loop of `EpsilonGreedyMetaAgent.act` on a non-empty action
list: draw `rng.random()`; below epsilon, `force_act` a `rng.choice`; else
the body calls `self.act(observation, actions, reward)` — the *same*
overridden method — which with non-empty actions re-enters this loop.
`none` on an exhausted draw list: every finite prefix of the random stream
is consumed without returning. -/
def eg_loop (exploration_rate : ℚ) (ag : QAgent Obs Act)
    (observation : Option Obs) (actions : List Act) :
    List Draw → Option (Option Act × QAgent Obs Act × List Draw)
  | [] => none
  | Draw.pick _ :: _ => none
  | Draw.rand q :: rest =>
      if q < exploration_rate then
        match rest with
        | Draw.pick i :: rest2 =>
            match actions[i]? with
            | some a =>
                some (some a, (force_act ag observation (some a)).2, rest2)
            | none => none
        | _ => none
      else eg_loop exploration_rate ag observation actions rest

/-- `EpsilonGreedyMetaAgent.act(observation, actions, reward=None)`: with an
empty action list, call `observe_reward` and return `None` (a `None` reward
on this path raises a `TypeError` inside the update, modelled as `none`);
with a non-empty list, run the retry loop. -/
def eg_act (exploration_rate : ℚ) (ag : QAgent Obs Act)
    (observation : Option Obs) (actions : List Act) (reward : Option ℚ)
    (draws : List Draw) : Option (Option Act × QAgent Obs Act × List Draw) :=
  match actions with
  | [] =>
      match reward with
      | some r => some (none, observe_reward ag observation r, draws)
      | none => none
  | _ :: _ => eg_loop exploration_rate ag observation actions draws

end QAgentOps

/-! ## Environments and the gating-memory combinator -/

/-- Behaviour of a base environment with state type `S`, as used by the
gating-memory wrapper (`super().get_observation()`, `super().get_actions()`,
`super().react(action)`).  `react` returns `none` when the base raises
(e.g. its `assert action in self.get_actions()` fails). -/
structure EnvM (S : Type) where
  get_observation : S → Option State
  get_actions : S → List Action
  react : S → Action → Option (ℚ × S)

/-- `GatingMemoryMetaEnvironment.ATTR_PREFIX`. -/
def memAttrPre : Name := "memory_".data

/-- The synthetic `Action('gate', slot=slot_num, attribute=attr)`. -/
def gate_action (slot : Nat) (attr : Name) : Action :=
  { name := "gate".data,
    attrs := [("slot".data, Val.vint slot), ("attribute".data, Val.vstr attr)] }

/-- `GatingMemoryMetaEnvironment.get_actions`: the base actions; if they are
empty return them unchanged; else, if the base observation is present,
append one `gate` action per memory slot per base-observation attribute not
starting with the prefix (slot outer loop, attribute inner loop). -/
def gm_get_actions {S : Type} (env : EnvM S) (st : S)
    (memories : List (Option Val)) : List Action :=
  match env.get_actions st with
  | [] => []
  | a :: rest =>
      match env.get_observation st with
      | none => a :: rest
      | some obs =>
          (a :: rest) ++
            (List.range memories.length).flatMap (fun slot =>
              (obs.attrs.filter (fun kv => !(memAttrPre.isPrefixOf kv.1))).map
                (fun kv => gate_action slot kv.1))

/-- `GatingMemoryMetaEnvironment.react`: a `'gate'` action is handled
internally — `self.memories[action.slot] =
getattr(super().get_observation(), action.attribute)` — and the configured
internal reward is returned, *without any check that the action is legal*;
any other action is forwarded to the base `react`.  `none` models a raised
exception (missing `slot`/`attribute` attribute, observation `None`,
attribute not on the observation, slot index out of range; a negative
Python index would wrap, which no claim exercises). -/
def gm_react {S : Type} (env : EnvM S) (internal_reward : ℚ) (st : S)
    (memories : List (Option Val)) (action : Action) :
    Option (ℚ × S × List (Option Val)) :=
  if action.name = "gate".data then
    match lookupA action.attrs "slot".data,
        lookupA action.attrs "attribute".data with
    | some (Val.vint slot), some (Val.vstr attr) =>
        match env.get_observation st with
        | none => none
        | some obs =>
            match lookupA obs.attrs attr with
            | none => none
            | some v =>
                if 0 ≤ slot ∧ slot.toNat < memories.length then
                  some (internal_reward, st, memories.set slot.toNat (some v))
                else none
    | _, _ => none
  else (env.react st action).map (fun p => (p.1, p.2, memories))

/-- `GridWorld` state: dimensions, goal and current position (the `start`
fields are only read by the episode resets, which no claim exercises). -/
structure GridWorld where
  width : Int
  height : Int
  goal_r : Int
  goal_c : Int
  row : Int
  col : Int
deriving DecidableEq, Repr

/-- `GridWorld.get_observation` (= `get_state`): always a `State` with the
`row` and `col` attributes, in that insertion order. -/
def GridWorld.get_observation (g : GridWorld) : Option State :=
  some { attrs := [("row".data, Val.vint g.row), ("col".data, Val.vint g.col)] }

/-- `GridWorld.get_actions`: empty at the goal, else the legal moves in the
order `up`, `down`, `left`, `right`. -/
def GridWorld.get_actions (g : GridWorld) : List Action :=
  if g.row = g.goal_r ∧ g.col = g.goal_c then []
  else
    (if 0 < g.row then [{ name := "up".data, attrs := [] }] else []) ++
    (if g.row < g.height - 1 then [{ name := "down".data, attrs := [] }] else []) ++
    (if 0 < g.col then [{ name := "left".data, attrs := [] }] else []) ++
    (if g.col < g.width - 1 then [{ name := "right".data, attrs := [] }] else [])

/-- `GridWorld.react`: assert the action is among `get_actions()` (Python
`in`, via `__eq__`), move, and return `1` at the goal, `-1` otherwise.
`none` models the failed assertion. -/
def GridWorld.react (g : GridWorld) (action : Action) :
    Option (ℚ × GridWorld) :=
  if py_mem_action action g.get_actions then
    let g2 :=
      if action.name = "up".data then { g with row := max 0 (g.row - 1) }
      else if action.name = "down".data then
        { g with row := min (g.height - 1) (g.row + 1) }
      else if action.name = "left".data then { g with col := max 0 (g.col - 1) }
      else if action.name = "right".data then
        { g with col := min (g.width - 1) (g.col + 1) }
      else g
    if g2.row = g.goal_r ∧ g2.col = g.goal_c then some (1, g2)
    else some (-1, g2)
  else none

/-- The `GridWorld` environment packaged for the wrapper. -/
def gridEnv : EnvM GridWorld :=
  { get_observation := GridWorld.get_observation,
    get_actions := GridWorld.get_actions,
    react := GridWorld.react }

/-! ## Specification-side definitions and concrete instances -/

/-- The maximum value stored at an observation, `0.0` when none — the
best-value quantity named by claim C5, evaluated on the table as it stands
when `observe_reward` is entered. -/
def best_stored_value {Obs Act : Type} [DecidableEq Obs] [DecidableEq Act]
    (ag : QAgent Obs Act) (observation : Option Obs) : ℚ :=
  match lookupA ag.value_function observation with
  | none => 0
  | some [] => 0
  | some ((_, q) :: rest) => (rest.map Prod.snd).foldl max q

/-- The update value claim C5 specifies:
`(1-alpha)*prev_value + alpha*(reward + gamma*best_value(observation))`,
with `prev_value` the entry's prior value (`0.0` if absent) and
`best_value` the maximum stored value at the observation (`0.0` if none). -/
def claimed_new_value {Obs Act : Type} [DecidableEq Obs] [DecidableEq Act]
    (ag : QAgent Obs Act) (observation : Option Obs) (reward : ℚ) : ℚ :=
  (1 - ag.learning_rate) * value_of ag ag.prev_observation ag.prev_action
    + ag.learning_rate *
        (reward + ag.discount_rate * best_stored_value ag observation)

/-- Two `Action` values with different names and identical keyword
attributes, as in the claim C3. -/
def action_named_a : Action :=
  { name := "a".data, attrs := [("x".data, Val.vint 1)] }

/-- Second action of the C3 pair. -/
def action_named_b : Action :=
  { name := "b".data, attrs := [("x".data, Val.vint 1)] }

/-- Agent for the C1 scenario: observation `0` has two stored actions,
`10` with value `1` (the greedy best) and `11` with value `0`. -/
def agent_c1 : QAgent Nat Nat :=
  { value_function := [(some 0, [(some 10, 1), (some 11, 0)])],
    prev_observation := none, prev_action := none,
    learning_rate := 1/2, discount_rate := 1/2 }

/-- Fresh tabular agent used to build the C4 scenario. -/
def fresh_c4 : QAgent Nat Nat :=
  { value_function := [], prev_observation := none, prev_action := none,
    learning_rate := 1/2, discount_rate := 1 }

/-- The C4 agent after one `force_act(0, 5)` and one
`observe_reward(1, 4)`: the table holds exactly the updated entry
`(0, 5) -> 2`. -/
def agent_c4 : QAgent Nat Nat :=
  observe_reward (force_act fresh_c4 (some 0) (some 5)).2 (some 1) 4

/-- Agent for the C5 scenario: table `{1: {21: -4}}`, cursor `(1, 22)` (the
cursor action `22` is not stored at observation `1`), `alpha = 1/2`,
`gamma = 1`. -/
def agent_c5 : QAgent Nat Nat :=
  { value_function := [(some 1, [(some 21, -4)])],
    prev_observation := some 1, prev_action := some 22,
    learning_rate := 1/2, discount_rate := 1 }

/-- The gating-memory-wrapped `GridWorld` of the C6 scenario, sitting at
its goal cell `(0, 1)` of a 1x2 grid: the base action set is empty. -/
def gw_goal : GridWorld :=
  { width := 2, height := 1, goal_r := 0, goal_c := 1, row := 0, col := 1 }

/-- Base observation used by the C7 witness: one ordinary attribute and one
already-prefixed `memory_0` attribute (so `m = 1`). -/
def obs_c7 : State :=
  { attrs := [("x".data, Val.vint 1), ("memory_0".data, Val.vnone)] }

/-- One-state base environment used by the C7 witness. -/
def env_c7 : EnvM Unit :=
  { get_observation := fun _ => some obs_c7,
    get_actions := fun _ => [{ name := "up".data, attrs := [] }],
    react := fun _ _ => none }

/-! ## Helper lemmas -/

/-- Association lookup finds the value of a present key when keys are
distinct (the dict invariant). -/
theorem lookupA_self {κ ν : Type} [DecidableEq κ] (l : List (κ × ν))
    (hnd : (l.map Prod.fst).Nodup) (k : κ) (v : ν) (hm : (k, v) ∈ l) :
    lookupA l k = some v := by
  induction l with
  | nil => cases hm
  | cons p rest ih =>
      obtain ⟨k1, v1⟩ := p
      simp only [List.map_cons, List.nodup_cons] at hnd
      rcases List.mem_cons.mp hm with heq | hmem
      · injection heq with h1 h2
        subst h1
        subst h2
        simp [lookupA]
      · have hk : k1 ≠ k := by
          intro hk
          exact hnd.1 (hk ▸ List.mem_map_of_mem Prod.fst hmem)
        simpa [lookupA, hk] using ih hnd.2 hmem

/-- Python dict equality is reflexive on dicts (no duplicate keys). -/
theorem dict_eq_self (l : List (Name × Val)) (hnd : (l.map Prod.fst).Nodup) :
    dict_eq l l = true := by
  have hall : l.all (fun kv => decide (lookupA l kv.1 = some kv.2)) = true := by
    rw [List.all_eq_true]
    intro kv hkv
    exact decide_eq_true (lookupA_self l hnd kv.1 kv.2 hkv)
  unfold dict_eq
  rw [hall]
  rfl

/-! ## Claims -/

/-- C3: the claim "hashing is consistent with equality for all record
values" fails for `Action`: `Action('a', x=1) == Action('b', x=1)` holds
(the inherited `__eq__` compares only `_attributes_`), but their hashed
keys `(name, sorted items)` differ, so their Python hashes differ (up to
accidental tuple-hash collisions).  The code violates the claim. -/
theorem action_hash_key_breaks_eq_hash_consistency :
    action_eq action_named_a action_named_b = true
    ∧ action_hash_key action_named_a ≠ action_hash_key action_named_b := by
  decide

/-- C10: `Action` equality does not depend on the `name` discriminator —
for any two names and any duplicate-free keyword attribute list the two
actions compare equal, and Python list membership (as used by the
environment `react` assertions) cannot distinguish them. -/
theorem action_eq_ignores_name (n1 n2 : Name) (kw : List (Name × Val))
    (l : List Action) (h : (kw.map Prod.fst).Nodup) :
    action_eq { name := n1, attrs := kw } { name := n2, attrs := kw } = true
    ∧ py_mem_action { name := n1, attrs := kw } l
        = py_mem_action { name := n2, attrs := kw } l := by
  exact ⟨dict_eq_self kw h, rfl⟩

/-- Witness for C10 at a concrete input. -/
theorem action_eq_ignores_name_witness :
    (([("x".data, Val.vint 1)].map Prod.fst).Nodup : Prop)
    ∧ (action_eq { name := "gate".data, attrs := [("x".data, Val.vint 1)] }
          { name := "store".data, attrs := [("x".data, Val.vint 1)] } = true
        ∧ py_mem_action { name := "gate".data, attrs := [("x".data, Val.vint 1)] }
            [gate_action 0 "row".data]
          = py_mem_action { name := "store".data, attrs := [("x".data, Val.vint 1)] }
            [gate_action 0 "row".data]) :=
  ⟨by decide,
    action_eq_ignores_name "gate".data "store".data [("x".data, Val.vint 1)]
      [gate_action 0 "row".data] (by decide)⟩

/-- C9: on an observation with no stored actions, `get_best_action` returns
`None` and `get_best_value` returns exactly `0.0`, through the
default-value semantics of `get_value` at the `(observation, None)` pair. -/
theorem best_action_none_and_best_value_zero_when_no_stored {Obs Act : Type}
    [DecidableEq Obs] [DecidableEq Act] (ag : QAgent Obs Act)
    (observation : Option Obs)
    (h : get_stored_actions ag observation = []) :
    get_best_action ag observation = none
    ∧ (get_best_value ag observation).1 = 0 := by
  have hba : get_best_action ag observation = none := by
    unfold get_best_action
    rw [h]
  refine ⟨hba, ?_⟩
  unfold get_best_value
  rw [hba]
  unfold get_value
  cases hl : lookupA ag.value_function observation with
  | none => rfl
  | some inner =>
      unfold get_stored_actions at h
      rw [hl] at h
      have hinner : inner = [] := List.map_eq_nil_iff.mp h
      subst hinner
      rfl

/-- Witness for C9: a fresh agent with an empty table. -/
theorem best_action_none_witness :
    get_stored_actions
        ({ value_function := [], prev_observation := none, prev_action := none,
           learning_rate := 1, discount_rate := 1 } : QAgent Nat Nat)
        (some 0) = []
    ∧ (get_best_action
          ({ value_function := [], prev_observation := none, prev_action := none,
             learning_rate := 1, discount_rate := 1 } : QAgent Nat Nat)
          (some 0) = none
        ∧ (get_best_value
            ({ value_function := [], prev_observation := none, prev_action := none,
               learning_rate := 1, discount_rate := 1 } : QAgent Nat Nat)
            (some 0)).1 = 0) :=
  ⟨rfl, best_action_none_and_best_value_zero_when_no_stored _ (some 0) rfl⟩

/-- C2: with `epsilon = 0` and a non-empty action list, the epsilon-greedy
`act` never returns: the else-branch calls the overridden `act` itself
(`self.act`, not `super().act`), and `rng.random() < 0` is false for every
value the generator can produce, so every finite prefix of the random
stream is consumed without an answer (`none` for all valid draw lists). -/
theorem eg_act_zero_epsilon_diverges {Obs Act : Type} [DecidableEq Obs]
    [DecidableEq Act] (ag : QAgent Obs Act) (observation : Option Obs)
    (a : Act) (rest : List Act) (reward : Option ℚ) (draws : List Draw)
    (h : ∀ d ∈ draws, d.valid) :
    eg_act 0 ag observation (a :: rest) reward draws = none := by
  show eg_loop 0 ag observation (a :: rest) draws = none
  induction draws with
  | nil => rfl
  | cons d ds ih =>
      cases d with
      | pick i => rfl
      | rand q =>
          have hq : ¬ q < 0 := by
            have hv := h (Draw.rand q) (List.mem_cons_self _ _)
            exact not_lt.mpr hv.1
          have hds : ∀ d ∈ ds, d.valid := fun d hd =>
            h d (List.mem_cons_of_mem _ hd)
          simpa [eg_loop, hq] using ih hds

/-- Witness for C2 at a concrete agent, action list and valid draw list. -/
theorem eg_act_zero_epsilon_diverges_witness :
    (∀ d ∈ [Draw.rand 0, Draw.rand (1/2)], d.valid)
    ∧ eg_act 0
        ({ value_function := [], prev_observation := none, prev_action := none,
           learning_rate := 1, discount_rate := 1 } : QAgent Nat Nat)
        (some 0) [3] none [Draw.rand 0, Draw.rand (1/2)] = none :=
  ⟨by norm_num [Draw.valid],
    eg_act_zero_epsilon_diverges _ (some 0) 3 [] none _
      (by norm_num [Draw.valid])⟩

/-- C1: with `epsilon = 1/2`, a first uniform draw of `3/4` (not below
epsilon) must, per the claim, delegate to the wrapped `Agent.act`, whose
greedy selection returns action `10`.  Instead the code re-enters its own
overridden `act` (`self.act`), consumes further draws (`1/4`, then the
choice index `1`) and returns the uniformly random action `11`: the
selection performed is not the wrapped agent's. -/
theorem eg_act_no_delegation_on_high_draw :
    ¬((3:ℚ)/4 < 1/2)
    ∧ (eg_act (1/2) agent_c1 (some 0) [10, 11] none
        [Draw.rand (3/4), Draw.rand (1/4), Draw.pick 1]).map (fun r => r.1)
        = some (some 11)
    ∧ (agent_act agent_c1 [Draw.rand (3/4), Draw.rand (1/4), Draw.pick 1]
        (some 0) [10, 11]).map (fun r => r.1) = some 10 := by
  refine ⟨by norm_num, ?_, ?_⟩
  · norm_num [eg_act, eg_loop, force_act]
  · norm_num [agent_act, get_best_action, get_stored_actions, value_of,
      lookupA, agent_c1, force_act]

/-- C4: a read can create a table entry.  After the single update wrote
`(0, 5)`, the read `get_value(0, 7)` returns `0` but *inserts* the entry
`(0, 7) -> 0.0` through the inner `defaultdict` (the guard only covers the
outer level), so an action key appears that was never the target of an
`observe_reward` update, and the read changed the table. -/
theorem get_value_read_creates_entry :
    agent_c4.value_function = [(some 0, [(some 5, 2)])]
    ∧ (get_value agent_c4 (some 0) (some 7)).1 = 0
    ∧ (get_value agent_c4 (some 0) (some 7)).2.value_function
        = [(some 0, [(some 5, 2), (some 7, 0)])]
    ∧ get_stored_actions (get_value agent_c4 (some 0) (some 7)).2 (some 0)
        = [some 5, some 7] := by
  refine ⟨?_, ?_, ?_, ?_⟩ <;>
    norm_num [agent_c4, fresh_c4, observe_reward, get_value, get_best_value,
      get_best_action, get_stored_actions, value_of, dict_write, setA,
      lookupA, force_act]

/-- C5: `observe_reward(1, 0)` writes `0` to the entry `(1, 22)`, but the
value the claim specifies is
`(1-1/2)*0 + 1/2*(0 + 1*(-4)) = -2`: the defaultdict read of the cursor's
value first inserts `(1, 22) -> 0.0`, and the subsequent best-value
computation then sees that fresh `0.0` instead of the maximum stored value
`-4`, so the claimed update formula does not hold. -/
theorem observe_reward_deviates_from_claimed_update :
    value_of (observe_reward agent_c5 (some 1) 0) (some 1) (some 22) = 0
    ∧ claimed_new_value agent_c5 (some 1) 0 = -2
    ∧ (observe_reward agent_c5 (some 1) 0).value_function
        = [(some 1, [(some 21, -4), (some 22, 0)])] := by
  refine ⟨?_, ?_, ?_⟩ <;>
    norm_num [agent_c5, observe_reward, get_value, get_best_value,
      get_best_action, get_stored_actions, value_of, dict_write, setA,
      lookupA, claimed_new_value, best_stored_value]

/-- C6: at a terminal base state the wrapped `get_actions()` is empty, yet
`react` on the synthetic `Action('gate', slot=0, attribute='row')` is not
rejected: it silently writes the observation's `row` value into memory slot
`0` and returns the internal reward — contradicting the claim that an
action not among the currently legal actions must be rejected rather than
silently mutate state. -/
theorem gm_react_accepts_illegal_gate_silently :
    gm_get_actions gridEnv gw_goal [none] = []
    ∧ gm_react gridEnv 0 gw_goal [none] (gate_action 0 "row".data)
        = some (0, gw_goal, [some (Val.vint 0)])
    ∧ ([some (Val.vint 0)] : List (Option Val)) ≠ [none] := by
  decide

/-- Every attribute produced by the memory dict comprehension starts with
the prefix. -/
theorem mem_pairs_isPre (p : Name) (v : List (Option Val)) :
    ∀ x ∈ mem_pairs p v, p.isPrefixOf x.1 = true := by
  intro x hx
  rcases List.mem_map.mp hx with ⟨iv, _, rfl⟩
  exact List.isPrefixOf_iff_prefix.mpr (List.prefix_append _ _)

/-- Keeping the prefixed attributes of an augmented record keeps exactly
the memory pairs. -/
theorem filter_pre_augment (s : State) (v : List (Option Val)) (p : Name) :
    (augment_state s v p).attrs.filter (fun kv => p.isPrefixOf kv.1)
      = mem_pairs p v := by
  unfold augment_state
  rw [List.filter_append]
  have h1 : (mem_pairs p v).filter (fun kv => p.isPrefixOf kv.1)
      = mem_pairs p v :=
    List.filter_eq_self.mpr (mem_pairs_isPre p v)
  have h2 : (s.attrs.filter (fun kv => !(p.isPrefixOf kv.1))).filter
      (fun kv => p.isPrefixOf kv.1) = [] := by
    apply List.filter_eq_nil_iff.mpr
    intro a ha
    have := (List.mem_filter.mp ha).2
    simp only [Bool.not_eq_true'] at this
    simp [this]
  rw [h1, h2, List.append_nil]

/-- Dropping the prefixed attributes of an augmented record recovers the
non-prefixed attributes of the original record. -/
theorem filter_nonpre_augment (s : State) (v : List (Option Val)) (p : Name) :
    (augment_state s v p).attrs.filter (fun kv => !(p.isPrefixOf kv.1))
      = s.attrs.filter (fun kv => !(p.isPrefixOf kv.1)) := by
  unfold augment_state
  rw [List.filter_append]
  have h1 : (mem_pairs p v).filter (fun kv => !(p.isPrefixOf kv.1)) = [] := by
    apply List.filter_eq_nil_iff.mpr
    intro a ha
    simp [mem_pairs_isPre p v a ha]
  have h2 : (s.attrs.filter (fun kv => !(p.isPrefixOf kv.1))).filter
      (fun kv => !(p.isPrefixOf kv.1))
      = s.attrs.filter (fun kv => !(p.isPrefixOf kv.1)) := by
    apply List.filter_eq_self.mpr
    intro a ha
    exact (List.mem_filter.mp ha).2
  rw [h1, h2, List.nil_append]

/-- C8: augmentation is strip-then-reattach.  The prefixed attributes of
`augment_state s v p` are exactly the memory pairs `p0 .. p(k-1)` valued by
`v` (hence `k` of them), the non-prefixed attributes are exactly those of
`s` unchanged, and re-augmenting an already-augmented state with any new
vector `w` replaces rather than duplicates: it equals augmenting the
original state with `w` directly. -/
theorem augment_state_replaces_not_duplicates (s : State)
    (v w : List (Option Val)) (p : Name) :
    (augment_state s v p).attrs.filter (fun kv => p.isPrefixOf kv.1)
        = mem_pairs p v
    ∧ ((augment_state s v p).attrs.filter (fun kv => p.isPrefixOf kv.1)).length
        = v.length
    ∧ (augment_state s v p).attrs.filter (fun kv => !(p.isPrefixOf kv.1))
        = s.attrs.filter (fun kv => !(p.isPrefixOf kv.1))
    ∧ augment_state (augment_state s v p) w p = augment_state s w p := by
  refine ⟨filter_pre_augment s v p, ?_, filter_nonpre_augment s v p, ?_⟩
  · rw [filter_pre_augment s v p]
    simp [mem_pairs, List.enum_length]
  · show State.mk _ = State.mk _
    rw [filter_nonpre_augment s v p]

/-- The total length of a constant-width flat map over `range n`. -/
theorem length_flatMap_range_const {β : Type} (n m : ℕ) (f : ℕ → List β)
    (hf : ∀ i, (f i).length = m) :
    ((List.range n).flatMap f).length = n * m := by
  rw [List.length_flatMap]
  have hrep : List.map (List.length ∘ f) (List.range n)
      = List.replicate n m := by
    apply List.eq_replicate_iff.mpr
    constructor
    · simp
    · intro b hb
      rcases List.mem_map.mp hb with ⟨i, _, rfl⟩
      exact hf i
  rw [hrep, List.sum_replicate, smul_eq_mul]

/-- C7: for a gating-memory wrapper with `n` slots, a non-empty base action
list and a base observation with `m` non-`memory_` attributes, the wrapped
`get_actions()` is exactly the base actions followed by the `gate` actions
of every slot-attribute pair — `n * m` of them; and whenever the base action
list is empty the wrapped list is exactly empty. -/
theorem gm_get_actions_growth {S : Type} (env : EnvM S) (st : S)
    (memories : List (Option Val)) (obs : State)
    (hne : env.get_actions st ≠ []) (hobs : env.get_observation st = some obs) :
    gm_get_actions env st memories
      = env.get_actions st ++
          (List.range memories.length).flatMap (fun slot =>
            (obs.attrs.filter (fun kv => !(memAttrPre.isPrefixOf kv.1))).map
              (fun kv => gate_action slot kv.1))
    ∧ (gm_get_actions env st memories).length
        = (env.get_actions st).length +
            memories.length *
              (obs.attrs.filter (fun kv => !(memAttrPre.isPrefixOf kv.1))).length
    ∧ (∀ st2, env.get_actions st2 = [] → gm_get_actions env st2 memories = []) := by
  have hempty : ∀ st2, env.get_actions st2 = [] →
      gm_get_actions env st2 memories = [] := by
    intro st2 h2
    simp [gm_get_actions, h2]
  cases hact : env.get_actions st with
  | nil => exact absurd hact hne
  | cons a r =>
      have heq : gm_get_actions env st memories
          = (a :: r) ++
              (List.range memories.length).flatMap (fun slot =>
                (obs.attrs.filter
                    (fun kv => !(memAttrPre.isPrefixOf kv.1))).map
                  (fun kv => gate_action slot kv.1)) := by
        simp [gm_get_actions, hact, hobs]
      refine ⟨heq, ?_, hempty⟩
      rw [heq, List.length_append]
      congr 1
      apply length_flatMap_range_const
      intro i
      simp

/-- Witness for C7: two memory slots, one non-memory attribute, so the
wrapped action list is the base action followed by `2 * 1` gate actions. -/
theorem gm_get_actions_growth_witness :
    (env_c7.get_actions () ≠ [] ∧ env_c7.get_observation () = some obs_c7)
    ∧ (gm_get_actions env_c7 () [none, none]
          = env_c7.get_actions () ++
              (List.range ([none, none] : List (Option Val)).length).flatMap
                (fun slot =>
                  (obs_c7.attrs.filter
                      (fun kv => !(memAttrPre.isPrefixOf kv.1))).map
                    (fun kv => gate_action slot kv.1))
        ∧ (gm_get_actions env_c7 () [none, none]).length
            = (env_c7.get_actions ()).length +
                ([none, none] : List (Option Val)).length *
                  (obs_c7.attrs.filter
                      (fun kv => !(memAttrPre.isPrefixOf kv.1))).length
        ∧ (∀ st2, env_c7.get_actions st2 = [] →
            gm_get_actions env_c7 st2 [none, none] = [])) :=
  ⟨⟨by decide, by decide⟩,
    gm_get_actions_growth env_c7 () [none, none] obs_c7 (by decide) (by decide)⟩

end RL
